import Mathlib

set_option maxRecDepth 100000

/-!
Shallow embedding of the block-indexer service: a UTXO-style ledger over a
relational store.  The embedding models the four source modules:

* `database.ts`  — `DatabaseManager` (tables as lists of rows, SQL statements
  as pure state transformers, the SQL transaction as `Except` all-or-nothing);
* `validation.ts` — `ValidationService` (pure checks plus the SHA-256 block id);
* `routes.ts`     — `RouteHandler` (the `/blocks` and `/rollback` endpoints,
  which alone write the in-memory current height);
* `types.ts`      — the payload shapes.

Machine integers are modelled as `Int`/`Nat` (the stored values fit SQL
`INTEGER` and JS safe integers in every scenario considered; no overflow is
exercised).  Row order of a SQL `SELECT` without `ORDER BY` is modelled as
insertion order; `ORDER BY height DESC` is modelled by an insertion sort.
-/

/-! ## SHA-256 (the `crypto` collaborator used by `calculateBlockId`) -/

def w32 (x : Nat) : Nat := x % 4294967296

def rotr (n x : Nat) : Nat := w32 ((x >>> n) ||| (x <<< (32 - n)))

def smallSigma0 (x : Nat) : Nat := (rotr 7 x) ^^^ (rotr 18 x) ^^^ (x >>> 3)

def smallSigma1 (x : Nat) : Nat := (rotr 17 x) ^^^ (rotr 19 x) ^^^ (x >>> 10)

def bigSigma0 (x : Nat) : Nat := (rotr 2 x) ^^^ (rotr 13 x) ^^^ (rotr 22 x)

def bigSigma1 (x : Nat) : Nat := (rotr 6 x) ^^^ (rotr 11 x) ^^^ (rotr 25 x)

def chFn (x y z : Nat) : Nat := (x &&& y) ^^^ ((x ^^^ 4294967295) &&& z)

def majFn (x y z : Nat) : Nat := (x &&& y) ^^^ (x &&& z) ^^^ (y &&& z)

def shaK : List Nat :=
  [1116352408, 1899447441, 3049323471, 3921009573,
   961987163, 1508970993, 2453635748, 2870763221,
   3624381080, 310598401, 607225278, 1426881987,
   1925078388, 2162078206, 2614888103, 3248222580,
   3835390401, 4022224774, 264347078, 604807628,
   770255983, 1249150122, 1555081692, 1996064986,
   2554220882, 2821834349, 2952996808, 3210313671,
   3336571891, 3584528711, 113926993, 338241895,
   666307205, 773529912, 1294757372, 1396182291,
   1695183700, 1986661051, 2177026350, 2456956037,
   2730485921, 2820302411, 3259730800, 3345764771,
   3516065817, 3600352804, 4094571909, 275423344,
   430227734, 506948616, 659060556, 883997877,
   958139571, 1322822218, 1537002063, 1747873779,
   1955562222, 2024104815, 2227730452, 2361852424,
   2428436474, 2756734187, 3204031479, 3329325298]

structure Hash8 where
  a : Nat
  b : Nat
  c : Nat
  d : Nat
  e : Nat
  f : Nat
  g : Nat
  h : Nat
deriving Repr, DecidableEq

def shaH0 : Hash8 :=
  ⟨1779033703, 3144134277, 1013904242, 2773480762,
   1359893119, 2600822924, 528734635, 1541459225⟩

/-- UTF-8 encoding of one code point, as a list of byte values. -/
def utf8Bytes (c : Nat) : List Nat :=
  if c < 128 then [c]
  else if c < 2048 then [192 + c / 64, 128 + c % 64]
  else if c < 65536 then [224 + c / 4096, 128 + (c / 64) % 64, 128 + c % 64]
  else [240 + c / 262144, 128 + (c / 4096) % 64, 128 + (c / 64) % 64, 128 + c % 64]

def strBytes (s : String) : List Nat :=
  s.data.foldr (fun ch acc => utf8Bytes ch.toNat ++ acc) []

/-- Big-endian 8-byte encoding of the bit length. -/
def beBytes8 (n : Nat) : List Nat :=
  [n / 2 ^ 56 % 256, n / 2 ^ 48 % 256, n / 2 ^ 40 % 256, n / 2 ^ 32 % 256,
   n / 2 ^ 24 % 256, n / 2 ^ 16 % 256, n / 2 ^ 8 % 256, n % 256]

def padMessage (msg : List Nat) : List Nat :=
  let padZeros := (64 - ((msg.length + 9) % 64)) % 64
  msg ++ [128] ++ List.replicate padZeros 0 ++ beBytes8 (8 * msg.length)

/-- Group bytes into big-endian 32-bit words. -/
def toWords : List Nat → List Nat
  | a :: b :: c :: d :: rest => (((a * 256 + b) * 256 + c) * 256 + d) :: toWords rest
  | _ => []

/-- Split a word list into 16-word chunks (the padded message length is a
multiple of 16 words). -/
def chunks16 : List Nat → List (List Nat)
  | w0 :: w1 :: w2 :: w3 :: w4 :: w5 :: w6 :: w7 ::
    w8 :: w9 :: w10 :: w11 :: w12 :: w13 :: w14 :: w15 :: rest =>
      [w0, w1, w2, w3, w4, w5, w6, w7, w8, w9, w10, w11, w12, w13, w14, w15] :: chunks16 rest
  | _ => []

/-- Extend a 16-word chunk to the 64-word message schedule. -/
def buildSchedule (ws : List Nat) : List Nat :=
  (List.range 48).foldl
    (fun a i =>
      let t := i + 16
      a ++ [w32 (smallSigma1 (a.getD (t - 2) 0) + a.getD (t - 7) 0 +
                 smallSigma0 (a.getD (t - 15) 0) + a.getD (t - 16) 0)])
    ws

def shaRound (s : Hash8) (kw : Nat × Nat) : Hash8 :=
  let t1 := w32 (s.h + bigSigma1 s.e + chFn s.e s.f s.g + kw.1 + kw.2)
  let t2 := w32 (bigSigma0 s.a + majFn s.a s.b s.c)
  ⟨w32 (t1 + t2), s.a, s.b, s.c, w32 (s.d + t1), s.e, s.f, s.g⟩

def compressChunk (hv : Hash8) (ws : List Nat) : Hash8 :=
  let z := (shaK.zip (buildSchedule ws)).foldl shaRound hv
  ⟨w32 (hv.a + z.a), w32 (hv.b + z.b), w32 (hv.c + z.c), w32 (hv.d + z.d),
   w32 (hv.e + z.e), w32 (hv.f + z.f), w32 (hv.g + z.g), w32 (hv.h + z.h)⟩

def sha256Core (msg : List Nat) : Hash8 :=
  (chunks16 (toWords (padMessage msg))).foldl compressChunk shaH0

def hexDigit (n : Nat) : Char :=
  if n < 10 then Char.ofNat (48 + n) else Char.ofNat (87 + n)

/-- Lowercase hex rendering of one 32-bit word. -/
def hexWord (n : Nat) : List Char :=
  [hexDigit (n / 2 ^ 28 % 16), hexDigit (n / 2 ^ 24 % 16), hexDigit (n / 2 ^ 20 % 16),
   hexDigit (n / 2 ^ 16 % 16), hexDigit (n / 2 ^ 12 % 16), hexDigit (n / 2 ^ 8 % 16),
   hexDigit (n / 2 ^ 4 % 16), hexDigit (n % 16)]

/-- `createHash('sha256').update(s).digest('hex')` of Node's `crypto` module. -/
def sha256Hex (s : String) : String :=
  let hv := sha256Core (strBytes s)
  String.mk (hexWord hv.a ++ hexWord hv.b ++ hexWord hv.c ++ hexWord hv.d ++
             hexWord hv.e ++ hexWord hv.f ++ hexWord hv.g ++ hexWord hv.h)

/-! ## Data model (`types.ts`) -/

structure Output where
  address : String
  value : Int
deriving Repr, DecidableEq

structure Input where
  txId : String
  index : Nat
deriving Repr, DecidableEq

structure Transaction where
  id : String
  inputs : List Input
  outputs : List Output
deriving Repr, DecidableEq

structure Block where
  id : String
  height : Int
  transactions : List Transaction
deriving Repr, DecidableEq

/-! ## Persisted store (the tables created by `DatabaseManager.createTables`)

Each table is a list of rows in insertion order.  `SERIAL` ids and
`created_at` columns are never read by the program and are omitted. -/

structure BlockRow where
  id : String
  height : Int
deriving Repr, DecidableEq

structure TransactionRow where
  id : String
  block_id : String
deriving Repr, DecidableEq

structure InputRow where
  transaction_id : String
  input_tx_id : String
  input_index : Nat
deriving Repr, DecidableEq

structure OutputRow where
  transaction_id : String
  address : String
  value : Int
  output_index : Nat
  is_spent : Bool
deriving Repr, DecidableEq

structure DBState where
  blocks : List BlockRow
  transactions : List TransactionRow
  transaction_inputs : List InputRow
  transaction_outputs : List OutputRow
  address_balances : List (String × Int)
deriving Repr, DecidableEq

def dbEmpty : DBState := ⟨[], [], [], [], []⟩

/-! ## `DatabaseManager` (database.ts) -/

/-- `SELECT value FROM transaction_outputs WHERE transaction_id = $1 AND
output_index = $2`, throwing when no row matches
(`DatabaseManager.getInputValue`). -/
def getInputValue (s : DBState) (txId : String) (index : Nat) : Except String Int :=
  match s.transaction_outputs.find? (fun o => o.transaction_id == txId && o.output_index == index) with
  | none => .error ("Input not found: " ++ txId ++ ":" ++ toString index)
  | some o => .ok o.value

/-- `DatabaseManager.getAddressBalance`: 0 when the address has no row. -/
def getAddressBalance (s : DBState) (address : String) : Int :=
  match s.address_balances.find? (fun p => p.1 == address) with
  | some p => p.2
  | none => 0

/-- `INSERT INTO address_balances (address, balance) VALUES ($1, $2) ON
CONFLICT (address) DO UPDATE SET balance = address_balances.balance - $2`
(the statement used for input debits in `processTransaction`). -/
def upsertBalanceSub (bals : List (String × Int)) (address : String) (amt : Int) :
    List (String × Int) :=
  if bals.any (fun p => p.1 == address) then
    bals.map (fun p => if p.1 == address then (p.1, p.2 - amt) else p)
  else bals ++ [(address, amt)]

/-- `INSERT INTO address_balances (address, balance) VALUES ($1, $2) ON
CONFLICT (address) DO UPDATE SET balance = address_balances.balance + $2`
(the statement used for output credits in `processTransaction`). -/
def upsertBalanceAdd (bals : List (String × Int)) (address : String) (amt : Int) :
    List (String × Int) :=
  if bals.any (fun p => p.1 == address) then
    bals.map (fun p => if p.1 == address then (p.1, p.2 + amt) else p)
  else bals ++ [(address, amt)]

/-- `UPDATE address_balances SET balance = balance - $2 WHERE address = $1`
(no insert on a missing row; used by `rollbackTransaction`). -/
def updateBalanceSub (bals : List (String × Int)) (address : String) (amt : Int) :
    List (String × Int) :=
  bals.map (fun p => if p.1 == address then (p.1, p.2 - amt) else p)

/-- `UPDATE address_balances SET balance = balance + $2 WHERE address = $1`. -/
def updateBalanceAdd (bals : List (String × Int)) (address : String) (amt : Int) :
    List (String × Int) :=
  bals.map (fun p => if p.1 == address then (p.1, p.2 + amt) else p)

/-- The body of the input loop of `DatabaseManager.processTransaction`:
insert the input row, set the referenced output's `is_spent` to `TRUE`,
re-select the referenced output and, when a row exists, run the balance
upsert with parameters `[address, -value]`. -/
def applyInput (s : DBState) (txId : String) (inp : Input) : DBState :=
  let s1 : DBState :=
    { s with transaction_inputs := s.transaction_inputs ++ [⟨txId, inp.txId, inp.index⟩] }
  let s2 : DBState :=
    { s1 with transaction_outputs := s1.transaction_outputs.map (fun o =>
        if o.transaction_id == inp.txId && o.output_index == inp.index then
          { o with is_spent := true } else o) }
  match s2.transaction_outputs.find?
      (fun o => o.transaction_id == inp.txId && o.output_index == inp.index) with
  | some o =>
      { s2 with address_balances := upsertBalanceSub s2.address_balances o.address (-o.value) }
  | none => s2

/-- The body of the output loop of `DatabaseManager.processTransaction`:
insert the output row (unspent), credit its value to its address. -/
def applyOutput (s : DBState) (txId : String) (idx : Nat) (o : Output) : DBState :=
  let s1 : DBState :=
    { s with transaction_outputs :=
        s.transaction_outputs ++ [⟨txId, o.address, o.value, idx, false⟩] }
  { s1 with address_balances := upsertBalanceAdd s1.address_balances o.address o.value }

/-- `DatabaseManager.processTransaction`.  The only statement that can fail is
the transaction-row insert (primary-key violation on a duplicate id). -/
def processTransaction (s : DBState) (tx : Transaction) (blockId : String) :
    Except String DBState :=
  if s.transactions.any (fun t => t.id == tx.id) then
    .error "duplicate key value violates unique constraint transactions_pkey"
  else
    let s1 : DBState := { s with transactions := s.transactions ++ [⟨tx.id, blockId⟩] }
    let s2 := tx.inputs.foldl (fun acc inp => applyInput acc tx.id inp) s1
    .ok (tx.outputs.enum.foldl (fun acc io => applyOutput acc tx.id io.1 io.2) s2)

/-- `DatabaseManager.processBlock`: one SQL transaction (`BEGIN` … `COMMIT`
with `ROLLBACK` on error), so failure yields no state at all and the caller
keeps the pre-call state.  The block insert can fail on the `blocks` primary
key (id) or the `UNIQUE` height. -/
def processBlock (s : DBState) (b : Block) : Except String DBState :=
  if s.blocks.any (fun r => r.id == b.id) then
    .error "duplicate key value violates unique constraint blocks_pkey"
  else if s.blocks.any (fun r => r.height == b.height) then
    .error "duplicate key value violates unique constraint blocks_height_key"
  else
    let s1 : DBState := { s with blocks := s.blocks ++ [⟨b.id, b.height⟩] }
    b.transactions.foldlM (fun acc tx => processTransaction acc tx b.id) s1

/-- `DatabaseManager.rollbackTransaction`: debit every output the transaction
created, then for each of its inputs re-locate the referenced output and, when
it still exists, clear its spent flag and credit its value back; finally
delete the transaction's input rows, output rows and its own row. -/
def rollbackTransaction (s : DBState) (txId : String) : DBState :=
  let outs := (s.transaction_outputs.filter (fun o => o.transaction_id == txId)).map
      (fun o => (o.address, o.value))
  let s1 : DBState :=
    { s with address_balances :=
        outs.foldl (fun b av => updateBalanceSub b av.1 av.2) s.address_balances }
  let inps := (s1.transaction_inputs.filter (fun i => i.transaction_id == txId)).map
      (fun i => (i.input_tx_id, i.input_index))
  let s2 := inps.foldl (fun acc ti =>
      match acc.transaction_outputs.find?
          (fun o => o.transaction_id == ti.1 && o.output_index == ti.2) with
      | some o =>
          let acc1 : DBState :=
            { acc with transaction_outputs := acc.transaction_outputs.map (fun r =>
                if r.transaction_id == ti.1 && r.output_index == ti.2 then
                  { r with is_spent := false } else r) }
          { acc1 with address_balances :=
              updateBalanceAdd acc1.address_balances o.address o.value }
      | none => acc) s1
  let s3 : DBState :=
    { s2 with transaction_inputs :=
        s2.transaction_inputs.filter (fun i => !(i.transaction_id == txId)) }
  let s4 : DBState :=
    { s3 with transaction_outputs :=
        s3.transaction_outputs.filter (fun o => !(o.transaction_id == txId)) }
  { s4 with transactions := s4.transactions.filter (fun t => !(t.id == txId)) }

/-- `DatabaseManager.rollbackBlock`: `SELECT id FROM transactions WHERE
block_id = $1` carries no `ORDER BY`, so the rows come back in insertion
(commit) order; each is undone, then the block row is deleted. -/
def rollbackBlock (s : DBState) (blockId : String) : DBState :=
  let txIds := ((s.transactions.filter (fun t => t.block_id == blockId)).map (fun t => t.id))
  let s1 := txIds.foldl rollbackTransaction s
  { s1 with blocks := s1.blocks.filter (fun b => !(b.id == blockId)) }

/-- Insert into a list kept in descending height order. -/
def insertDesc (b : BlockRow) : List BlockRow → List BlockRow
  | [] => [b]
  | c :: rest => if c.height ≤ b.height then b :: c :: rest else c :: insertDesc b rest

/-- `ORDER BY height DESC`, modelled as an insertion sort. -/
def sortByHeightDesc : List BlockRow → List BlockRow
  | [] => []
  | b :: rest => insertDesc b (sortByHeightDesc rest)

/-- The rows returned by `SELECT id, height FROM blocks WHERE height > $1
ORDER BY height DESC` at the start of `rollbackToHeight`. -/
def blocksToUndo (s : DBState) (target : Int) : List BlockRow :=
  sortByHeightDesc (s.blocks.filter (fun b => b.height > target))

/-- `DatabaseManager.rollbackToHeight`: undo every block above the target, in
descending height order, inside one SQL transaction.  None of the statements
involved can violate a constraint, so the unit always commits. -/
def rollbackToHeight (s : DBState) (target : Int) : DBState :=
  (blocksToUndo s target).foldl (fun acc b => rollbackBlock acc b.id) s

/-! ## `ValidationService` (validation.ts) -/

structure BlockValidationResult where
  isValid : Bool
  error : Option String
  message : Option String
deriving Repr, DecidableEq

def validResult : BlockValidationResult := ⟨true, none, none⟩

/-- `ValidationService.calculateBlockId`: JS `height + transactionIds.join('')`
coerces the number to its decimal string and appends the ids with no
separator; the block id is the SHA-256 hex digest of that string. -/
def calculateBlockId (height : Int) (transactionIds : List String) : String :=
  sha256Hex (toString height ++ String.join transactionIds)

/-- `ValidationService.validateBlockId`. -/
def validateBlockId (b : Block) : Bool :=
  b.id == calculateBlockId b.height (b.transactions.map (fun tx => tx.id))

/-- `ValidationService.validateHeight`. -/
def validateHeight (blockHeight currentHeight : Int) : BlockValidationResult :=
  if blockHeight ≠ currentHeight + 1 then
    ⟨false, some "Invalid height",
     some ("Expected height " ++ toString (currentHeight + 1) ++ ", got " ++ toString blockHeight)⟩
  else validResult

/-- `ValidationService.validateBlockIdFormat`. -/
def validateBlockIdFormat (b : Block) : BlockValidationResult :=
  if !validateBlockId b then
    ⟨false, some "Invalid block ID", some "Block ID does not match the expected hash"⟩
  else validResult

/-- The `inputSum` accumulation loop of `validateInputOutputBalance`: add up
`getInputValue` results left to right, stopping at the first lookup failure. -/
def sumInputsFrom (s : DBState) (acc : Int) : List Input → Except String Int
  | [] => .ok acc
  | inp :: rest =>
    match getInputValue s inp.txId inp.index with
    | .error e => .error e
    | .ok v => sumInputsFrom s (acc + v) rest

/-- `tx.outputs.reduce((sum, output) => sum + output.value, 0)`. -/
def outputSum (outs : List Output) : Int :=
  outs.foldl (fun acc o => acc + o.value) 0

/-- `ValidationService.validateInputOutputBalance`: transactions with no
inputs are skipped; a failed input lookup yields the invalid-input-reference
result carrying the thrown message; an input/output sum mismatch yields the
invalid-transaction-balance result; otherwise continue with the rest. -/
def validateInputOutputBalance (s : DBState) : List Transaction → BlockValidationResult
  | [] => validResult
  | tx :: rest =>
    if tx.inputs.isEmpty then validateInputOutputBalance s rest
    else
      match sumInputsFrom s 0 tx.inputs with
      | .error msg => ⟨false, some "Invalid input reference", some msg⟩
      | .ok inputSum =>
        if inputSum ≠ outputSum tx.outputs then
          ⟨false, some "Invalid transaction balance",
           some "Sum of inputs does not equal sum of outputs"⟩
        else validateInputOutputBalance s rest

/-- `ValidationService.validateBlock`: height check, then id-format check,
then balance check, each returned immediately on failure. -/
def validateBlock (s : DBState) (currentHeight : Int) (b : Block) : BlockValidationResult :=
  let hv := validateHeight b.height currentHeight
  if !hv.isValid then hv
  else
    let iv := validateBlockIdFormat b
    if !iv.isValid then iv
    else
      let bv := validateInputOutputBalance s b.transactions
      if !bv.isValid then bv
      else validResult

/-- `ValidationService.validateRollbackHeight`.  The `isNaN(targetHeight)`
guard handles a non-numeric `parseInt` result, which has no counterpart in
the `Int` model; every other branch is modelled verbatim. -/
def validateRollbackHeight (targetHeight currentHeight : Int) : BlockValidationResult :=
  if targetHeight < 1 then
    ⟨false, some "Invalid height", some "Height must be a positive integer"⟩
  else if targetHeight > currentHeight then
    ⟨false, some "Invalid rollback height",
     some "Cannot rollback to a height greater than current height"⟩
  else if currentHeight - targetHeight > 2000 then
    ⟨false, some "Rollback too far", some "Cannot rollback more than 2000 blocks"⟩
  else validResult

/-! ## `RouteHandler` (routes.ts) and the in-memory Height Tracker -/

structure ServiceState where
  db : DBState
  currentHeight : Int
deriving Repr, DecidableEq

def serviceEmpty : ServiceState := ⟨dbEmpty, 0⟩

/-- `POST /blocks`: validate against the tracked height (400 on failure, no
mutation), then `processBlock` (a thrown storage error is caught → 500 and,
because the SQL unit rolled back, no mutation), then — only after the commit —
`setCurrentHeight(block.height)` and 200. -/
def submitBlock (st : ServiceState) (b : Block) : Nat × ServiceState :=
  let vr := validateBlock st.db st.currentHeight b
  if vr.isValid then
    match processBlock st.db b with
    | .ok db' => (200, ⟨db', b.height⟩)
    | .error _ => (500, st)
  else (400, st)

/-- `POST /rollback`: validate the target against the tracked height (400 on
failure, no mutation), then `rollbackToHeight` and, only after the commit,
`setCurrentHeight(targetHeight)` and 200. -/
def rollback (st : ServiceState) (target : Int) : Nat × ServiceState :=
  let vr := validateRollbackHeight target st.currentHeight
  if vr.isValid then (200, ⟨rollbackToHeight st.db target, target⟩)
  else (400, st)

/-! ## Concrete scenario: the worked example of the specification

Block 1 carries a coinbase-style transaction paying 100 to "A"; block 2
spends that output into 60 → "B" and 40 → "C"; block 3 (used for the
double-spend scenario) spends the same output of block 1 again. -/

def tx1ex : Transaction := ⟨"t1", [], [⟨"A", 100⟩]⟩

def blk1ex : Block := ⟨calculateBlockId 1 ["t1"], 1, [tx1ex]⟩

def tx2ex : Transaction := ⟨"t2", [⟨"t1", 0⟩], [⟨"B", 60⟩, ⟨"C", 40⟩]⟩

def blk2ex : Block := ⟨calculateBlockId 2 ["t2"], 2, [tx2ex]⟩

def tx3ex : Transaction := ⟨"t3", [⟨"t1", 0⟩], [⟨"D", 100⟩]⟩

def blk3ex : Block := ⟨calculateBlockId 3 ["t3"], 3, [tx3ex]⟩

/-- Service state after submitting block 1 to the empty service. -/
def st1ex : ServiceState := (submitBlock serviceEmpty blk1ex).2

/-- Service state after submitting blocks 1 and 2. -/
def st2ex : ServiceState := (submitBlock st1ex blk2ex).2

/-! ## Specification-side definitions, for comparison with the code -/

/-- Sum of the values of the currently unspent outputs addressed to `addr`
(the quantity the specification's balance invariant equates with the stored
aggregate). -/
def unspentOutputSum (s : DBState) (addr : String) : Int :=
  (s.transaction_outputs.filter (fun o => o.address == addr && !o.is_spent)).foldl
    (fun acc o => acc + o.value) 0

/-- Modelled from the spec: undoing a block with its transactions taken in
the exact reverse of commit order, as the rollback claim describes; the
per-transaction undo is the code's own. -/
def rollbackBlockRevOrder (s : DBState) (blockId : String) : DBState :=
  let txIds := ((s.transactions.filter (fun t => t.block_id == blockId)).map (fun t => t.id)).reverse
  let s1 := txIds.foldl rollbackTransaction s
  { s1 with blocks := s1.blocks.filter (fun b => !(b.id == blockId)) }

/-- Modelled from the spec: `rollbackToHeight` with reverse-of-commit
transaction order inside each block. -/
def rollbackToHeightRevOrder (s : DBState) (target : Int) : DBState :=
  (blocksToUndo s target).foldl (fun acc b => rollbackBlockRevOrder acc b.id) s

/-- Phase 1 of the specified per-transaction undo: debit every output the
transaction created from that output's address balance. -/
def undoOutputsPhase (s : DBState) (txId : String) : DBState :=
  let outs := (s.transaction_outputs.filter (fun o => o.transaction_id == txId)).map
      (fun o => (o.address, o.value))
  { s with address_balances :=
      outs.foldl (fun b av => updateBalanceSub b av.1 av.2) s.address_balances }

/-- Phase 2 of the specified per-transaction undo: for each input of the
transaction, re-locate the output it had spent and, when it still exists,
flip its spent flag back to false and credit its value back to its address. -/
def undoInputsPhase (s : DBState) (txId : String) : DBState :=
  ((s.transaction_inputs.filter (fun i => i.transaction_id == txId)).map
    (fun i => (i.input_tx_id, i.input_index))).foldl
    (fun acc ti =>
      match acc.transaction_outputs.find?
          (fun o => o.transaction_id == ti.1 && o.output_index == ti.2) with
      | some o =>
          let acc1 : DBState :=
            { acc with transaction_outputs := acc.transaction_outputs.map (fun r =>
                if r.transaction_id == ti.1 && r.output_index == ti.2 then
                  { r with is_spent := false } else r) }
          { acc1 with address_balances :=
              updateBalanceAdd acc1.address_balances o.address o.value }
      | none => acc) s

/-- Phase 3 of the specified per-transaction undo: delete the transaction's
input rows, output rows and its own transaction row. -/
def deleteRowsPhase (s : DBState) (txId : String) : DBState :=
  let s1 : DBState :=
    { s with transaction_inputs :=
        s.transaction_inputs.filter (fun i => !(i.transaction_id == txId)) }
  let s2 : DBState :=
    { s1 with transaction_outputs :=
        s1.transaction_outputs.filter (fun o => !(o.transaction_id == txId)) }
  { s2 with transactions := s2.transactions.filter (fun t => !(t.id == txId)) }

/-- First-match value of the output referenced by an input, 0 when absent. -/
def refValue (s : DBState) (inp : Input) : Int :=
  match getInputValue s inp.txId inp.index with
  | .ok v => v
  | .error _ => 0

def isOkE (r : Except String Int) : Bool :=
  match r with
  | .ok _ => true
  | .error _ => false

/-- Sum of referenced output values of a list of inputs. -/
def inputRefSum (s : DBState) : List Input → Int
  | [] => 0
  | inp :: rest => refValue s inp + inputRefSum s rest

/-- The specification's balance condition for a single transaction: carrying
at least one input forces every input to resolve and the referenced values to
sum to exactly the output sum. -/
def txBalanced (s : DBState) (tx : Transaction) : Prop :=
  tx.inputs ≠ [] →
    ((∀ inp ∈ tx.inputs, isOkE (getInputValue s inp.txId inp.index) = true) ∧
     inputRefSum s tx.inputs = outputSum tx.outputs)

/-- Mark every stored output spent (used to state that input resolution never
consults the spent flag). -/
def setAllSpent (s : DBState) : DBState :=
  { s with transaction_outputs :=
      s.transaction_outputs.map (fun o => { o with is_spent := true }) }

/-! ## Concrete scenario: one block with an internal spend chain
(used to observe the intra-block undo order of `rollbackBlock`), and a block
carrying a dangling input (used to observe the skip path of
`processTransaction`). -/

def blkOrd : Block :=
  ⟨"blkO", 1, [⟨"u1", [], [⟨"A", 100⟩]⟩, ⟨"u2", [⟨"u1", 0⟩], [⟨"B", 100⟩]⟩]⟩

/-- Store state after committing `blkOrd` (applied directly through
`processBlock`, which performs no validation). -/
def sOrd : DBState := (processBlock dbEmpty blkOrd).toOption.getD dbEmpty

def txDangling : Transaction := ⟨"tD", [⟨"ghost", 0⟩], []⟩

def blkDangling : Block := ⟨"blkD", 1, [txDangling]⟩

/-! ## Helper lemmas -/

theorem mem_insertDesc (a b : BlockRow) (l : List BlockRow) :
    a ∈ insertDesc b l ↔ a = b ∨ a ∈ l := by
  induction l with
  | nil => simp [insertDesc]
  | cons c rest ih =>
    simp only [insertDesc]
    split
    · simp [List.mem_cons]
    · simp only [List.mem_cons, ih]
      tauto

theorem pairwise_insertDesc (b : BlockRow) (l : List BlockRow)
    (h : l.Pairwise (fun x y => y.height ≤ x.height)) :
    (insertDesc b l).Pairwise (fun x y => y.height ≤ x.height) := by
  induction l with
  | nil => simp [insertDesc]
  | cons c rest ih =>
    rcases List.pairwise_cons.1 h with ⟨hc, hrest⟩
    simp only [insertDesc]
    split
    · refine List.pairwise_cons.2 ⟨?_, h⟩
      intro x hx
      rcases List.mem_cons.1 hx with rfl | hx'
      · assumption
      · exact le_trans (hc x hx') (by assumption)
    · refine List.pairwise_cons.2 ⟨?_, ih hrest⟩
      intro x hx
      rcases (mem_insertDesc x b rest).1 hx with rfl | hx'
      · omega
      · exact hc x hx'

theorem mem_sortByHeightDesc (a : BlockRow) (l : List BlockRow) :
    a ∈ sortByHeightDesc l ↔ a ∈ l := by
  induction l with
  | nil => simp [sortByHeightDesc]
  | cons b rest ih =>
    simp only [sortByHeightDesc, mem_insertDesc, ih, List.mem_cons]

theorem pairwise_sortByHeightDesc (l : List BlockRow) :
    (sortByHeightDesc l).Pairwise (fun x y => y.height ≤ x.height) := by
  induction l with
  | nil => simp [sortByHeightDesc]
  | cons b rest ih => exact pairwise_insertDesc b _ ih

/-! ## Claims -/

/-- Claim C1 — code_bug.  Rollback is not the inverse of apply: after validly
applying blocks 1 and 2 (block 2 spends block 1's 100-value output of "A"),
"A" holds 200 instead of 0; rolling back to height 1 leaves "A" at 300
instead of the 100 it held after block 1, and re-applying block 2 yields 400
instead of the 200 the first application produced.  The root cause is the
input-debit upsert of `processTransaction`, whose conflict branch computes
`balance - (-value)`. -/
theorem c1_rollback_not_inverse_of_apply :
    (submitBlock serviceEmpty blk1ex).1 = 200 ∧
    getAddressBalance st1ex.db "A" = 100 ∧
    (submitBlock st1ex blk2ex).1 = 200 ∧
    getAddressBalance st2ex.db "A" = 200 ∧
    (rollback st2ex 1).1 = 200 ∧
    (rollback st2ex 1).2.currentHeight = 1 ∧
    getAddressBalance (rollback st2ex 1).2.db "A" = 300 ∧
    (submitBlock (rollback st2ex 1).2 blk2ex).1 = 200 ∧
    getAddressBalance (submitBlock (rollback st2ex 1).2 blk2ex).2.db "A" = 400 := by
  decide

/-- Claim C2 — code_bug.  Spending an output credits instead of debiting:
block 2 spends the 100-value output held by "A" (whose spent flag is indeed
set true), yet "A"'s balance rises from 100 to 200, because the upsert passes
`-value` as the conflict parameter and the conflict branch subtracts that
parameter. -/
theorem c2_spend_credits_instead_of_debiting :
    getAddressBalance st1ex.db "A" = 100 ∧
    (submitBlock st1ex blk2ex).1 = 200 ∧
    getAddressBalance st2ex.db "A" = 200 ∧
    ((st2ex.db.transaction_outputs.find?
        (fun o => o.transaction_id == "t1" && o.output_index == 0)).map
      (fun o => o.is_spent)) = some true := by
  decide

/-- Claim C3 — code_bug.  The balance invariant fails at committed height 2:
"A"'s stored aggregate is 200 while the sum of unspent outputs addressed to
"A" is 0 (its only output is spent).  The never-seen-address half of the
claim does hold: "Z" reads as 0. -/
theorem c3_invariant_violated_at_height2 :
    st2ex.currentHeight = 2 ∧
    getAddressBalance st2ex.db "A" = 200 ∧
    unspentOutputSum st2ex.db "A" = 0 ∧
    getAddressBalance st2ex.db "Z" = 0 := by
  decide

/-- Claim C4 — counterexample.  `rollbackBlock` does not undo a block's
transactions in reverse commit order: for a block whose second transaction
spends its first transaction's output, the code (commit order) leaves "A" at
100 while the claimed reverse order would leave "A" at 200, so the two
disagree. -/
theorem c4_intrablock_order_counterexample :
    getAddressBalance (rollbackToHeight sOrd 0) "A" = 100 ∧
    getAddressBalance (rollbackToHeightRevOrder sOrd 0) "A" = 200 ∧
    rollbackToHeight sOrd 0 ≠ rollbackToHeightRevOrder sOrd 0 := by
  decide

/-- Claim C4 — amended.  `rollbackToHeight(target)` undoes every committed
block with height > target in descending height order, and within each block
undoes its transactions in the order the store returns them — the commit
order, not its reverse; within each transaction it first debits every created
output's value from its address balance, then for each input flips the
referenced output's spent flag back to false and credits that output's value
back to its address (skipping inputs whose referenced output no longer
exists), then deletes the transaction's input rows, output rows, and
transaction row. -/
theorem c4_rollback_order_amended :
    (∀ (s : DBState) (t : Int),
      rollbackToHeight s t = (blocksToUndo s t).foldl (fun acc b => rollbackBlock acc b.id) s) ∧
    (∀ (s : DBState) (t : Int),
      (blocksToUndo s t).Pairwise (fun x y => y.height ≤ x.height)) ∧
    (∀ (s : DBState) (t : Int) (b : BlockRow),
      b ∈ blocksToUndo s t ↔ b ∈ s.blocks ∧ t < b.height) ∧
    (∀ (s : DBState) (blockId : String),
      rollbackBlock s blockId =
        (let s1 := ((s.transactions.filter (fun tr => tr.block_id == blockId)).map
            (fun tr => tr.id)).foldl rollbackTransaction s
         { s1 with blocks := s1.blocks.filter (fun bb => !(bb.id == blockId)) })) ∧
    (∀ (s : DBState) (txId : String),
      rollbackTransaction s txId =
        deleteRowsPhase (undoInputsPhase (undoOutputsPhase s txId) txId) txId) := by
  refine ⟨fun s t => rfl, fun s t => pairwise_sortByHeightDesc _, ?_, fun s blockId => rfl, ?_⟩
  · intro s t b
    unfold blocksToUndo
    rw [mem_sortByHeightDesc]
    simp [List.mem_filter]
  · intro s txId
    rfl

/-- Claim C5 — code_bug.  A dangling input does not abort `processBlock`: the
block below references output ("ghost", 0), which does not exist, yet the
unit commits, persisting the block row, the transaction row and the dangling
input row while silently skipping the balance adjustment. -/
theorem c5_dangling_input_commits :
    processBlock dbEmpty blkDangling =
      Except.ok ⟨[⟨"blkD", 1⟩], [⟨"tD", "blkD"⟩], [⟨"tD", "ghost", 0⟩], [], []⟩ := by
  rfl

/-- Claim C7 — confirmed.  `validateRollbackHeight` accepts exactly the
positive targets at most the current height and at depth at most 2000; each
of the three violations yields its own error kind, and at current height 2500
a rollback to 400 is rejected as too deep while 501 passes. -/
theorem c7_validate_rollback_height :
    (∀ t c : Int, (validateRollbackHeight t c).isValid = true ↔
      (1 ≤ t ∧ t ≤ c ∧ c - t ≤ 2000)) ∧
    validateRollbackHeight 0 2500 =
      ⟨false, some "Invalid height", some "Height must be a positive integer"⟩ ∧
    validateRollbackHeight 2501 2500 =
      ⟨false, some "Invalid rollback height",
       some "Cannot rollback to a height greater than current height"⟩ ∧
    validateRollbackHeight 400 2500 =
      ⟨false, some "Rollback too far", some "Cannot rollback more than 2000 blocks"⟩ ∧
    validateRollbackHeight 501 2500 = validResult := by
  refine ⟨?_, by decide, by decide, by decide, by decide⟩
  intro t c
  unfold validateRollbackHeight
  split_ifs with h1 h2 h3 <;> simp [validResult] <;> omega

/-- Claim C6 — confirmed.  Whenever `POST /blocks` or `POST /rollback` does
not answer 200 — a validation failure or an error thrown inside the storage
unit — the tracked height and the whole persisted state are exactly as they
were before the call; on success the height becomes the block's height
(apply) or the target (rollback), written only after the unit commits. -/
theorem c6_failed_operations_leave_state_unchanged :
    ∀ (st : ServiceState) (b : Block) (t : Int),
      ((submitBlock st b).1 ≠ 200 → (submitBlock st b).2 = st) ∧
      ((submitBlock st b).1 = 200 → (submitBlock st b).2.currentHeight = b.height) ∧
      ((rollback st t).1 ≠ 200 → (rollback st t).2 = st) ∧
      ((rollback st t).1 = 200 → (rollback st t).2.currentHeight = t) := by
  intro st b t
  by_cases hv : (validateBlock st.db st.currentHeight b).isValid = true <;>
    by_cases hr : (validateRollbackHeight t st.currentHeight).isValid = true <;>
      cases hpb : processBlock st.db b <;>
        simp [submitBlock, rollback, hv, hr, hpb]

/-- Witness for claim C6: a block of the wrong height is refused with the
service state intact; an out-of-range rollback target is refused with the
state intact; a successful rollback sets the tracked height to the target. -/
theorem c6_witness :
    (submitBlock serviceEmpty blk2ex).2 = serviceEmpty ∧
    (rollback serviceEmpty 5).2 = serviceEmpty ∧
    (rollback st2ex 1).2.currentHeight = 1 :=
  ⟨(c6_failed_operations_leave_state_unchanged serviceEmpty blk2ex 5).1 (by decide),
   (c6_failed_operations_leave_state_unchanged serviceEmpty blk2ex 5).2.2.1 (by decide),
   (c6_failed_operations_leave_state_unchanged st2ex blk2ex 1).2.2.2 (by decide)⟩

theorem sumInputsFrom_ok_of_all (s : DBState) (l : List Input) :
    ∀ acc : Int, (∀ inp ∈ l, isOkE (getInputValue s inp.txId inp.index) = true) →
      sumInputsFrom s acc l = .ok (acc + inputRefSum s l) := by
  induction l with
  | nil => intro acc _; simp [sumInputsFrom, inputRefSum]
  | cons inp rest ih =>
    intro acc hall
    have hok := hall inp (List.mem_cons_self inp rest)
    cases hg : getInputValue s inp.txId inp.index with
    | error e => rw [hg] at hok; simp [isOkE] at hok
    | ok v =>
      simp only [sumInputsFrom, hg]
      rw [ih _ (fun i hi => hall i (List.mem_cons_of_mem inp hi))]
      simp [inputRefSum, refValue, hg, Int.add_assoc]

theorem sumInputsFrom_ok_inv (s : DBState) (l : List Input) :
    ∀ acc v : Int, sumInputsFrom s acc l = .ok v →
      (∀ inp ∈ l, isOkE (getInputValue s inp.txId inp.index) = true) ∧
      v = acc + inputRefSum s l := by
  induction l with
  | nil =>
    intro acc v h
    simp [sumInputsFrom] at h
    simp [inputRefSum, h]
  | cons inp rest ih =>
    intro acc v h
    cases hg : getInputValue s inp.txId inp.index with
    | error e =>
      simp only [sumInputsFrom, hg] at h
      cases h
    | ok w =>
      simp only [sumInputsFrom, hg] at h
      obtain ⟨hall, hv⟩ := ih _ _ h
      refine ⟨?_, ?_⟩
      · intro i hi
        rcases List.mem_cons.1 hi with rfl | hi'
        · simp [isOkE, hg]
        · exact hall i hi'
      · rw [hv]
        simp [inputRefSum, refValue, hg, Int.add_assoc]

theorem validateIOB_valid_of_isValid (s : DBState) (txs : List Transaction) :
    (validateInputOutputBalance s txs).isValid = true →
    validateInputOutputBalance s txs = validResult := by
  induction txs with
  | nil => intro _; rfl
  | cons tx rest ih =>
    intro h
    by_cases he : tx.inputs.isEmpty
    · simp only [validateInputOutputBalance, if_pos he] at h ⊢
      exact ih h
    · cases hsum : sumInputsFrom s 0 tx.inputs with
      | error e =>
        simp only [validateInputOutputBalance, if_neg he, hsum] at h
        simp at h
      | ok v =>
        simp only [validateInputOutputBalance, if_neg he, hsum] at h ⊢
        by_cases hv : v ≠ outputSum tx.outputs
        · rw [if_pos hv] at h; simp at h
        · rw [if_neg hv] at h ⊢
          exact ih h

theorem validateIOB_isValid_iff (s : DBState) (txs : List Transaction) :
    (validateInputOutputBalance s txs).isValid = true ↔ ∀ tx ∈ txs, txBalanced s tx := by
  induction txs with
  | nil => simp [validateInputOutputBalance, validResult]
  | cons tx rest ih =>
    by_cases he : tx.inputs.isEmpty
    · rw [show validateInputOutputBalance s (tx :: rest) = validateInputOutputBalance s rest by
        simp only [validateInputOutputBalance, if_pos he], ih]
      constructor
      · intro h t ht
        rcases List.mem_cons.1 ht with rfl | ht'
        · intro hne
          exact absurd (List.isEmpty_iff.1 he) hne
        · exact h t ht'
      · intro h t ht
        exact h t (List.mem_cons_of_mem tx ht)
    · have hne : tx.inputs ≠ [] := fun hnil => he (by simp [hnil])
      cases hsum : sumInputsFrom s 0 tx.inputs with
      | error e =>
        simp only [validateInputOutputBalance, if_neg he, hsum]
        constructor
        · intro h; simp at h
        · intro hall
          obtain ⟨hok, _⟩ := hall tx (List.mem_cons_self tx rest) hne
          have hko := sumInputsFrom_ok_of_all s tx.inputs 0 hok
          rw [hko] at hsum
          cases hsum
      | ok v =>
        obtain ⟨hok, hval⟩ := sumInputsFrom_ok_inv s tx.inputs 0 v hsum
        rw [zero_add] at hval
        by_cases hv : v ≠ outputSum tx.outputs
        · simp only [validateInputOutputBalance, if_neg he, hsum, if_pos hv]
          constructor
          · intro h; simp at h
          · intro hall
            obtain ⟨_, hsumEq⟩ := hall tx (List.mem_cons_self tx rest) hne
            rw [← hval] at hsumEq
            exact (hv hsumEq).elim
        · simp only [validateInputOutputBalance, if_neg he, hsum, if_neg hv]
          rw [ih]
          push_neg at hv
          have hbal : txBalanced s tx := fun _ => ⟨hok, by rw [← hval, hv]⟩
          constructor
          · intro h t ht
            rcases List.mem_cons.1 ht with rfl | ht'
            · exact hbal
            · exact h t ht'
          · intro h t ht
            exact h t (List.mem_cons_of_mem tx ht)

/-- Claim C8 — confirmed.  `validateBlock` runs the height check, then the
block-id check, then the balance check, returning the first failure, and is
valid exactly when the height is `current + 1`, the id matches the
reference hash and every transaction with at least one input resolves all of
its inputs with referenced values summing exactly to its output sum
(zero-input transactions being exempt). -/
theorem c8_validate_block_order :
    ∀ (s : DBState) (h : Int) (b : Block),
      (b.height ≠ h + 1 →
        validateBlock s h b =
          ⟨false, some "Invalid height",
           some ("Expected height " ++ toString (h + 1) ++ ", got " ++ toString b.height)⟩) ∧
      (b.height = h + 1 →
        b.id ≠ calculateBlockId b.height (b.transactions.map (fun tx => tx.id)) →
        validateBlock s h b =
          ⟨false, some "Invalid block ID", some "Block ID does not match the expected hash"⟩) ∧
      (b.height = h + 1 →
        b.id = calculateBlockId b.height (b.transactions.map (fun tx => tx.id)) →
        validateBlock s h b = validateInputOutputBalance s b.transactions) ∧
      ((validateBlock s h b).isValid = true ↔
        (b.height = h + 1 ∧
         b.id = calculateBlockId b.height (b.transactions.map (fun tx => tx.id)) ∧
         ∀ tx ∈ b.transactions, txBalanced s tx)) := by
  intro s h b
  have heightCase : ∀ _ : b.height ≠ h + 1,
      validateBlock s h b =
        ⟨false, some "Invalid height",
         some ("Expected height " ++ toString (h + 1) ++ ", got " ++ toString b.height)⟩ := by
    intro hne
    simp [validateBlock, validateHeight, hne]
  have idCase : ∀ _ : b.height = h + 1,
      ∀ _ : b.id ≠ calculateBlockId b.height (b.transactions.map (fun tx => tx.id)),
      validateBlock s h b =
        ⟨false, some "Invalid block ID", some "Block ID does not match the expected hash"⟩ := by
    intro hh hid
    have hfalse : validateBlockId b = false := by
      simp [validateBlockId, hid]
    simp [validateBlock, validateHeight, hh, validResult, validateBlockIdFormat, hfalse]
  have passCase : ∀ _ : b.height = h + 1,
      ∀ _ : b.id = calculateBlockId b.height (b.transactions.map (fun tx => tx.id)),
      validateBlock s h b = validateInputOutputBalance s b.transactions := by
    intro hh hid
    have htrue : validateBlockId b = true := by
      simp [validateBlockId, hid]
    by_cases hbv : (validateInputOutputBalance s b.transactions).isValid = true
    · have hres := validateIOB_valid_of_isValid s b.transactions hbv
      simp [validateBlock, validateHeight, hh, validResult, validateBlockIdFormat, htrue, hres]
    · simp only [Bool.not_eq_true] at hbv
      simp [validateBlock, validateHeight, hh, validResult, validateBlockIdFormat, htrue, hbv]
  refine ⟨heightCase, idCase, passCase, ?_⟩
  by_cases hh : b.height = h + 1
  · by_cases hid : b.id = calculateBlockId b.height (b.transactions.map (fun tx => tx.id))
    · rw [passCase hh hid, validateIOB_isValid_iff]
      simp [hh, hid]
    · rw [idCase hh hid]
      simp [hid]
  · rw [heightCase hh]
    simp [hh]

/-- The payload of `blkBadId` is block 1's, but its id is not the reference
hash. -/
def blkBadId : Block := ⟨"x", 1, [tx1ex]⟩

/-- Witness for claim C8: the three orderings at concrete inputs — a
wrong-height block gets the height error, a wrong-id block at the right
height gets the id error, and a block passing both hands over to the balance
check. -/
theorem c8_witness :
    validateBlock dbEmpty 0 blk2ex =
      ⟨false, some "Invalid height",
       some ("Expected height " ++ toString ((0 : Int) + 1) ++ ", got " ++ toString blk2ex.height)⟩ ∧
    validateBlock dbEmpty 0 blkBadId =
      ⟨false, some "Invalid block ID", some "Block ID does not match the expected hash"⟩ ∧
    validateBlock st1ex.db 1 blk2ex = validateInputOutputBalance st1ex.db blk2ex.transactions :=
  ⟨(c8_validate_block_order dbEmpty 0 blk2ex).1 (by decide),
   (c8_validate_block_order dbEmpty 0 blkBadId).2.1 (by decide) (by decide),
   (c8_validate_block_order st1ex.db 1 blk2ex).2.2.1 (by decide) rfl⟩

/-- Claim C9 — confirmed.  `calculateBlockId` hashes the decimal height
concatenated with the joined transaction ids, so it is a function of that
combined string alone; the canonicalization is not injective, making
height 1 with ids ["23"] collide with height 12 with ids ["3"] (both hash
"123", whose SHA-256 hex digest is also checked against its reference
value). -/
theorem c9_calculate_block_id_concatenation :
    (∀ (h h' : Int) (ids ids' : List String),
      toString h ++ String.join ids = toString h' ++ String.join ids' →
      calculateBlockId h ids = calculateBlockId h' ids') ∧
    calculateBlockId 1 ["23"] = calculateBlockId 12 ["3"] ∧
    calculateBlockId 1 ["23"] =
      "a665a45920422f9d417e4867efdc4fb8a04a1f3fff1fa07e998e86f7f7a27ae3" := by
  refine ⟨?_, ?_, by decide⟩
  · intro h h' ids ids' heq
    unfold calculateBlockId
    rw [heq]
  · exact congrArg sha256Hex (by decide)

/-- Witness for claim C9: the congruence conjunct at the concrete collision
pair height 5 / ["67"] versus height 56 / ["7"]. -/
theorem c9_witness : calculateBlockId 5 ["67"] = calculateBlockId 56 ["7"] :=
  c9_calculate_block_id_concatenation.1 5 56 ["67"] ["7"] (by decide)

/-- Claim C10 — confirmed.  Input resolution never consults the spent flag:
`getInputValue` answers identically on a store whose outputs are all marked
spent; concretely, block 3 spends the very output ("t1", 0) that block 2
already spent (its stored flag is `true` at that point), yet it passes
validation, is applied with status 200, and credits 100 to "D". -/
theorem c10_double_spend_accepted :
    (∀ (s : DBState) (txId : String) (index : Nat),
      getInputValue (setAllSpent s) txId index = getInputValue s txId index) ∧
    ((st2ex.db.transaction_outputs.find?
        (fun o => o.transaction_id == "t1" && o.output_index == 0)).map
      (fun o => o.is_spent)) = some true ∧
    (submitBlock st2ex blk3ex).1 = 200 ∧
    getAddressBalance (submitBlock st2ex blk3ex).2.db "D" = 100 := by
  refine ⟨?_, by decide, by decide, by decide⟩
  intro s txId index
  cases s with
  | mk bs ts ins os bal =>
    simp only [getInputValue, setAllSpent]
    induction os with
    | nil => rfl
    | cons o rest ih =>
      by_cases hp : (o.transaction_id == txId && o.output_index == index) = true
      · simp [List.find?, hp]
      · simp only [Bool.not_eq_true] at hp
        simpa [List.find?, hp] using ih

/-- Witness for claim C4's amended theorem: the undo order at the concrete
one-block store — the pending-block list is sorted descending and holds
exactly the block above the target. -/
theorem c4_witness :
    (blocksToUndo sOrd 0).Pairwise (fun x y => y.height ≤ x.height) ∧
    (⟨"blkO", 1⟩ ∈ blocksToUndo sOrd 0 ↔ ⟨"blkO", 1⟩ ∈ sOrd.blocks ∧ (0 : Int) < 1) :=
  ⟨c4_rollback_order_amended.2.1 sOrd 0,
   c4_rollback_order_amended.2.2.1 sOrd 0 ⟨"blkO", 1⟩⟩

/-- Witness for claim C7: the acceptance characterization instantiated at
target 501, current height 2500. -/
theorem c7_witness :
    (validateRollbackHeight 501 2500).isValid = true ↔
      (1 ≤ (501 : Int) ∧ (501 : Int) ≤ 2500 ∧ (2500 : Int) - 501 ≤ 2000) :=
  c7_validate_rollback_height.1 501 2500

/-- Witness for claim C10: spent-flag blindness instantiated at the concrete
two-block store and the reference ("t1", 0). -/
theorem c10_witness :
    getInputValue (setAllSpent st2ex.db) "t1" 0 = getInputValue st2ex.db "t1" 0 :=
  c10_double_spend_accepted.1 st2ex.db "t1" 0
